import Mathlib

/-!
Shallow embedding of the CFDRenderer simulation core (src/CFD/Simulator.cpp).

Scalars are modelled by real numbers; glm 3-vectors by `CFD.Vec3`, glm 3x3
matrices by `CFD.Mat3` (math convention: entry `mRC` is row R, column C, so
glm's column-major `Result[c][r]` is `mRC` here), and glm quaternions by
Mathlib's `Quaternion ℝ` (`re` = w, `imI`/`imJ`/`imK` = x/y/z); glm's
quaternion product is the Hamilton product, which coincides with Mathlib's.
The force/torque registries (`std::map<std::string, glm::vec3>`) are modelled
as association lists with unique-key-preserving assignment.
-/

namespace CFD

/-- A glm vec3 over the reals. -/
@[ext]
structure Vec3 where
  x : ℝ
  y : ℝ
  z : ℝ

noncomputable instance : Zero Vec3 := ⟨⟨0, 0, 0⟩⟩

noncomputable instance : Add Vec3 := ⟨fun a b => ⟨a.x + b.x, a.y + b.y, a.z + b.z⟩⟩

noncomputable instance : Neg Vec3 := ⟨fun a => ⟨-a.x, -a.y, -a.z⟩⟩

noncomputable instance : SMul ℝ Vec3 := ⟨fun c a => ⟨c * a.x, c * a.y, c * a.z⟩⟩

noncomputable instance : AddCommGroup Vec3 where
  add := (· + ·)
  zero := 0
  neg := Neg.neg
  nsmul := nsmulRec
  zsmul := zsmulRec
  add_assoc a b c := by ext <;> exact add_assoc ..
  zero_add a := by ext <;> exact zero_add _
  add_zero a := by ext <;> exact add_zero _
  add_comm a b := by ext <;> exact add_comm ..
  neg_add_cancel a := by ext <;> exact neg_add_cancel _

noncomputable instance : Module ℝ Vec3 where
  one_smul a := by ext <;> exact one_mul _
  mul_smul c d a := by ext <;> exact mul_assoc ..
  smul_zero c := by ext <;> exact mul_zero _
  smul_add c a b := by ext <;> exact mul_add ..
  add_smul c d a := by ext <;> exact add_mul ..
  zero_smul a := by ext <;> exact zero_mul _

/-- Componentwise division of a glm vec3 by a scalar (`v / s` in glm). -/
noncomputable instance : HDiv Vec3 ℝ Vec3 :=
  ⟨fun a c => ⟨a.x / c, a.y / c, a.z / c⟩⟩

/-- A glm mat3 over the reals, in math (row, column) convention. -/
@[ext]
structure Mat3 where
  m00 : ℝ
  m01 : ℝ
  m02 : ℝ
  m10 : ℝ
  m11 : ℝ
  m12 : ℝ
  m20 : ℝ
  m21 : ℝ
  m22 : ℝ

/-- Matrix-vector product (`M * v` in glm). -/
def Mat3.mulVec (M : Mat3) (v : Vec3) : Vec3 :=
  ⟨M.m00 * v.x + M.m01 * v.y + M.m02 * v.z,
   M.m10 * v.x + M.m11 * v.y + M.m12 * v.z,
   M.m20 * v.x + M.m21 * v.y + M.m22 * v.z⟩

/-- Matrix transpose (`glm::transpose`). -/
def Mat3.transpose (M : Mat3) : Mat3 :=
  ⟨M.m00, M.m10, M.m20, M.m01, M.m11, M.m21, M.m02, M.m12, M.m22⟩

/-- Matrix product (`M * N` in glm). -/
def Mat3.mul (M N : Mat3) : Mat3 :=
  ⟨M.m00 * N.m00 + M.m01 * N.m10 + M.m02 * N.m20,
   M.m00 * N.m01 + M.m01 * N.m11 + M.m02 * N.m21,
   M.m00 * N.m02 + M.m01 * N.m12 + M.m02 * N.m22,
   M.m10 * N.m00 + M.m11 * N.m10 + M.m12 * N.m20,
   M.m10 * N.m01 + M.m11 * N.m11 + M.m12 * N.m21,
   M.m10 * N.m02 + M.m11 * N.m12 + M.m12 * N.m22,
   M.m20 * N.m00 + M.m21 * N.m10 + M.m22 * N.m20,
   M.m20 * N.m01 + M.m21 * N.m11 + M.m22 * N.m21,
   M.m20 * N.m02 + M.m21 * N.m12 + M.m22 * N.m22⟩

instance : Mul Mat3 := ⟨Mat3.mul⟩

/-- Rotation matrix of a quaternion, entrywise as in `glm::toMat3`
(`glm::mat3_cast`): with w = re, x = imI, y = imJ, z = imK, glm sets
`Result[c][r]`, i.e. row r and column c of the math matrix. -/
def quatToMat3 (q : Quaternion ℝ) : Mat3 :=
  ⟨1 - 2 * (q.imJ * q.imJ + q.imK * q.imK),
   2 * (q.imI * q.imJ - q.re * q.imK),
   2 * (q.imI * q.imK + q.re * q.imJ),
   2 * (q.imI * q.imJ + q.re * q.imK),
   1 - 2 * (q.imI * q.imI + q.imK * q.imK),
   2 * (q.imJ * q.imK - q.re * q.imI),
   2 * (q.imI * q.imK - q.re * q.imJ),
   2 * (q.imJ * q.imK + q.re * q.imI),
   1 - 2 * (q.imI * q.imI + q.imJ * q.imJ)⟩

/-- Quaternion with zero scalar part and a given vector part
(`glm::quat(0.f, v)`). -/
def quatFromVec (v : Vec3) : Quaternion ℝ :=
  ⟨0, v.x, v.y, v.z⟩

/-- Quaternion normalization, as `glm::normalize` on quaternions: compute the
length (square root of the componentwise dot product, which is `normSq`);
when it is not positive return the unit quaternion (glm's guard), otherwise
scale by the reciprocal length. -/
noncomputable def qnormalize (q : Quaternion ℝ) : Quaternion ℝ :=
  if Real.sqrt (Quaternion.normSq q) ≤ 0 then ⟨1, 0, 0, 0⟩
  else (Real.sqrt (Quaternion.normSq q))⁻¹ • q

/-- The force/torque registry, a `std::map<std::string, glm::vec3>`
modelled as an association list with unique keys maintained by assignment. -/
abbrev Registry := List (String × Vec3)

/-- Lookup in the registry (`map::find` followed by dereference). -/
def lookupName (k : String) : Registry → Option Vec3
  | [] => none
  | (n, v) :: rest => if n = k then some v else lookupName k rest

/-- Keyed assignment, the semantics of `g_forces_[name] = f`: overwrite the
entry when the key is present, insert it otherwise. -/
def mapAssign (k : String) (v : Vec3) : Registry → Registry
  | [] => [(k, v)]
  | (n, w) :: rest => if n = k then (k, v) :: rest else (n, w) :: mapAssign k v rest

/-- Erase the entry found for a key, the semantics of `m.erase(m.find(k))`
on a unique-key map. -/
def mapEraseFirst (k : String) : Registry → Registry
  | [] => []
  | (n, w) :: rest => if n = k then rest else (n, w) :: mapEraseFirst k rest

/-- Simulator::add_global_force: `g_forces_[name] = f` (overrides an
existing entry). -/
def add_global_force (name : String) (f : Vec3) (g_forces : Registry) : Registry :=
  mapAssign name f g_forces

/-- Simulator::add_global_torque: `g_torques_[name] = f` (overrides an
existing entry). -/
def add_global_torque (name : String) (f : Vec3) (g_torques : Registry) : Registry :=
  mapAssign name f g_torques

/-- Simulator::remove_global_force: if `find` fails, print a diagnostic to
`std::cerr` (the returned flag) and leave the map untouched; otherwise erase
the found entry. -/
def remove_global_force (name : String) (g_forces : Registry) : Registry × Bool :=
  match lookupName name g_forces with
  | none => (g_forces, true)
  | some _ => (mapEraseFirst name g_forces, false)

/-- Simulator::remove_global_torque: same body as `remove_global_force`, on
the torque map. -/
def remove_global_torque (name : String) (g_torques : Registry) : Registry × Bool :=
  match lookupName name g_torques with
  | none => (g_torques, true)
  | some _ => (mapEraseFirst name g_torques, false)

/-- Net accumulated vector of a registry: the sum of all entries (spec 4.1,
`accumulate`). -/
noncomputable def netForce : Registry → Vec3
  | [] => 0
  | (_, v) :: rest => v + netForce rest

/-- A particle, `struct Sphere`: position, velocity, mass, radius and the
transient contact-partner list `colliders_` (partners identified by index). -/
structure Sphere where
  pos : Vec3
  vel : Vec3
  mass : ℝ
  radius : ℝ
  colliders : List Nat

/-- Body of the per-sphere loop of Simulator::integrate_spheres: accumulate
`acc += f.second / mass` over the force registry, add the damping force
`-damping_ * vel` divided by mass, then semi-implicit Euler (`vel += h*acc;
pos += h*vel`), and clear `colliders_`.  The `lowSphere` logging branches
touch no sphere state. -/
noncomputable def integrate_sphere (h damping : ℝ) (g_forces : Registry)
    (s : Sphere) : Sphere :=
  let acc : Vec3 := g_forces.foldl (fun a f => a + f.2 / s.mass) 0
  let acc := acc + ((-damping) • s.vel) / s.mass
  let vel := s.vel + h • acc
  let pos := s.pos + h • vel
  { pos := pos, vel := vel, mass := s.mass, radius := s.radius, colliders := [] }

/-- Simulator::integrate_spheres applies the body update to every sphere. -/
noncomputable def integrate_spheres (h damping : ℝ) (g_forces : Registry)
    (spheres : List Sphere) : List Sphere :=
  spheres.map (integrate_sphere h damping g_forces)

/-- The sphere update as the specification words it: acceleration is the sum
of all registered forces divided by mass minus the damping coefficient times
the current velocity divided by mass; velocity is updated first by `h` times
that acceleration, position then by `h` times the new velocity, and the
contact-partner list is cleared. -/
noncomputable def sphereStepSpec (h damping : ℝ) (g_forces : Registry)
    (s : Sphere) : Sphere :=
  let acc : Vec3 := netForce g_forces / s.mass - (damping • s.vel) / s.mass
  let vel := s.vel + h • acc
  let pos := s.pos + h • vel
  { pos := pos, vel := vel, mass := s.mass, radius := s.radius, colliders := [] }

/-- A rigid box, `class Box`: the dynamic state read and written by
Simulator::integrate_boxes (the render color and half-extents play no role
in the dynamics). -/
structure BoxState where
  center : Vec3
  orientation : Quaternion ℝ
  vel : Vec3
  P : Vec3
  angular_vel : Vec3
  L : Vec3
  inv_mass : ℝ
  IBodyInv : Mat3
  IInv : Mat3

/-- Body of the per-box loop of Simulator::integrate_boxes: accumulate
`acc += f.second * inv_mass` over the force registry and likewise the
torques; add the damping force `-damping_ * vel` times `inv_mass`;
`angular_damping = 1/(1+damping_)`; `center += h * vel` (old velocity);
`P_dot = acc / inv_mass` only when `inv_mass > .0001`, else zero;
`P += h * P_dot`; `vel = P * inv_mass`; `IInv = R * IBodyInv * transpose R`
with `R = toMat3 orientation`; `L += L_dot * h * angular_damping` with
`L_dot = torque`; `angular_vel = IInv * L`;
`orientation += 0.5 * quat(0, angular_vel) * orientation * h`; finally
`orientation = normalize(orientation)`. -/
noncomputable def integrate_box (h damping : ℝ) (g_forces g_torques : Registry)
    (b : BoxState) : BoxState :=
  let acc : Vec3 := g_forces.foldl (fun a f => a + b.inv_mass • f.2) 0
  let torque : Vec3 := g_torques.foldl (fun a f => a + b.inv_mass • f.2) 0
  let acc := acc + b.inv_mass • ((-damping) • b.vel)
  let angular_damping : ℝ := 1 / (1 + damping)
  let center := b.center + h • b.vel
  let P_dot : Vec3 := if b.inv_mass > 1 / 10000 then acc / b.inv_mass else 0
  let P := b.P + h • P_dot
  let vel := b.inv_mass • P
  let R := quatToMat3 b.orientation
  let IInv := R * b.IBodyInv * R.transpose
  let L_dot := torque
  let L := b.L + (h * angular_damping) • L_dot
  let angular_vel := IInv.mulVec L
  let orientation :=
    b.orientation + h • (((1 / 2 : ℝ) • quatFromVec angular_vel) * b.orientation)
  let orientation := qnormalize orientation
  { center := center, orientation := orientation, vel := vel, P := P,
    angular_vel := angular_vel, L := L, inv_mass := b.inv_mass,
    IBodyInv := b.IBodyInv, IInv := IInv }

/-- Simulator::integrate_boxes applies the body update to every box (the
trailing loop only pushes each box transform to the external reactphysics3d
world and mutates no box). -/
noncomputable def integrate_boxes (h damping : ℝ) (g_forces g_torques : Registry)
    (boxes : List BoxState) : List BoxState :=
  boxes.map (integrate_box h damping g_forces g_torques)

/-- Modelled from the spec: the effect of one whole contact-resolution phase
(Simulator::handle_collisions) on a single box.  The ImpulseSolver class is
not under src/; per the spec the resolver applies "impulse resolution:
instantaneous velocity correction applied at a contact", i.e. it only
mutates velocity-level state (velocity, momenta) and never a box's center,
orientation, inverse mass or body inertia; and the six immovable boundary
boxes (inverse mass 0) "never move", so the resolver leaves them entirely
unchanged. -/
def SpecResolve (r : BoxState → BoxState) : Prop :=
  ∀ b : BoxState,
    (r b).center = b.center ∧ (r b).orientation = b.orientation ∧
    (r b).inv_mass = b.inv_mass ∧ (r b).IBodyInv = b.IBodyInv ∧
    (b.inv_mass = 0 → r b = b)

/-- Modelled from the spec: the state in which the six boundary boxes are
created (the Box constructor is not under src/): inverse mass 0, at rest
(zero linear velocity and zero angular momentum), and a unit orientation
quaternion ("Six boundary boxes (floor, ceiling, four walls) are created
once at world-init with inverse mass 0 and never move"; "orientation (unit
quaternion)"). -/
def StaticRest (b : BoxState) : Prop :=
  b.inv_mass = 0 ∧ b.vel = 0 ∧ b.L = 0 ∧ Quaternion.normSq b.orientation = 1

/-- Per-frame environment, as seen by one box: the net effect of the
collision-handling phase on this box, the step size `h` computed by
Simulator::integrate, the damping coefficient, and the current contents of
the two registries. -/
structure FrameEnv where
  resolve : BoxState → BoxState
  h : ℝ
  damping : ℝ
  g_forces : Registry
  g_torques : Registry

/-- One per-frame step for one box, as driven by Simulator::run: collision
handling followed by integration. -/
noncomputable def frameStep (e : FrameEnv) (b : BoxState) : BoxState :=
  integrate_box e.h e.damping e.g_forces e.g_torques (e.resolve b)

/-- Several consecutive frames, frame `k` using environment `env k`. -/
noncomputable def runFrames (env : Nat → FrameEnv) : Nat → BoxState → BoxState
  | 0, b => b
  | n + 1, b => frameStep (env n) (runFrames env n b)

/-- The box contact-resolution loop of Simulator::handle_collisions, over an
abstract collision-world state `W`: `query w` is the result of
`impulse_solver_.clear(); world_->testCollision(impulse_solver_);
impulse_solver_.has_contacts()` and `solve` is the state change of
`impulse_solver_.solve()`.  Modelled from the spec: the ImpulseSolver class
is not under src/, and per the spec's resolver state machine
(`had_collisions` at the loop foot) the loop repeats exactly while the pass
found contacts, so a pass with no contacts exits the loop.  The counter `c`
is `solver_iteration_counter`; the structural fuel starts at 31 and
maintains `c + fuel = 31`, so the fuel-exhausted branch is never the one
that stops the loop: the `c = 30` break is. -/
def solverLoopGo {W : Type} (query : W → Bool) (solve : W → W) :
    Nat → Nat → W → Nat × W
  | 0, c, w => (c, w)
  | fuel + 1, c, w =>
    if c = 30 then (c, w)
    else if query w then solverLoopGo query solve fuel (c + 1) (solve w)
    else (c, w)

/-- The box contact-resolution loop as entered by
Simulator::handle_collisions, with `solver_iteration_counter = 0`. -/
def solverLoop {W : Type} (query : W → Bool) (solve : W → W) (w : W) : Nat × W :=
  solverLoopGo query solve 31 0 w

/-- Events of one frame of Simulator::run, in the order they are executed. -/
inductive Ev where
  | sphereDetect
  | sphereResolve
  | boxQuery
  | boxSolve
  | integrateSpheres
  | integrateBoxes
deriving DecidableEq

/-- Detection events: the particle grid pass and the box collision query. -/
def Ev.isDetect : Ev → Bool
  | Ev.sphereDetect => true
  | Ev.boxQuery => true
  | _ => false

/-- Resolution events: the particle contact pass and a box impulse pass. -/
def Ev.isResolve : Ev → Bool
  | Ev.sphereResolve => true
  | Ev.boxSolve => true
  | _ => false

/-- Integration events. -/
def Ev.isIntegrate : Ev → Bool
  | Ev.integrateSpheres => true
  | Ev.integrateBoxes => true
  | _ => false

/-- Event trace of the box contact-resolution loop: pass `c` emits its
collision query, then an impulse pass when the query reported contacts
(`query c`).  Fuel as in `solverLoopGo`. -/
def boxPhaseGo (query : Nat → Bool) : Nat → Nat → List Ev
  | 0, _ => []
  | fuel + 1, c =>
    if c = 30 then []
    else
      Ev.boxQuery ::
        (if query c then Ev.boxSolve :: boxPhaseGo query fuel (c + 1) else [])

/-- Event trace of one frame of Simulator::run, excluding the external
render call: Simulator::handle_collisions runs the sphere collision pass
(detection then resolution inside `col_solver_->handle_collisions`; modelled
from the spec, the grid solver is not under src/), then the box
query/impulse loop; Simulator::integrate then integrates spheres and boxes.
`query c` tells whether the box collision query of pass `c` reports
contacts. -/
def frameTrace (query : Nat → Bool) : List Ev :=
  [Ev.sphereDetect, Ev.sphereResolve] ++ boxPhaseGo query 31 0 ++
    [Ev.integrateSpheres, Ev.integrateBoxes]

/-- Claim C8 as stated, on one frame trace: every detection event indexes
strictly before every resolution event, and every detection or resolution
event indexes strictly before every integration event. -/
def detectBeforeResolveBeforeIntegrate (t : List Ev) : Prop :=
  (∀ i, i < t.length → (t.getD i Ev.sphereDetect).isDetect = true →
    ∀ j, j < t.length → (t.getD j Ev.sphereDetect).isResolve = true → i < j) ∧
  (∀ i, i < t.length → (t.getD i Ev.sphereDetect).isIntegrate = false →
    ∀ j, j < t.length → (t.getD j Ev.sphereDetect).isIntegrate = true → i < j)

/-- Teardown events of Simulator's destructor: `destroyCollisionBody` for a
registered body (identified by its `bodies_` key), or
`destroyPhysicsWorld`. -/
inductive DtorEv where
  | destroyBody : Nat → DtorEv
  | destroyWorld
deriving DecidableEq

/-- Event trace of Simulator's destructor: destroy every registered
collision body (in `bodies_` order), then destroy the physics world. -/
def dtorTrace (bodies : List Nat) : List DtorEv :=
  bodies.map DtorEv.destroyBody ++ [DtorEv.destroyWorld]

/-- Witness fixture: the zero 3x3 matrix. -/
noncomputable def mat0 : Mat3 := ⟨0, 0, 0, 0, 0, 0, 0, 0, 0⟩

/-- Witness fixture: a boundary box as created at world init — immovable
(inverse mass 0), at rest, identity orientation. -/
noncomputable def boxW : BoxState where
  center := ⟨0, -3, 0⟩
  orientation := ⟨1, 0, 0, 0⟩
  vel := 0
  P := 0
  angular_vel := 0
  L := 0
  inv_mass := 0
  IBodyInv := mat0
  IInv := mat0

/-- Witness fixture: the gravity entry installed by Simulator::init. -/
noncomputable def gravityReg : Registry :=
  [(("gravity" : String), (⟨0, -(9 / 10), 0⟩ : Vec3))]

/-- Witness fixture: a frame environment with an identity resolution phase,
unit step, the source's damping coefficient 0.09 and gravity only. -/
noncomputable def envW : Nat → FrameEnv := fun _ =>
  { resolve := id, h := 1, damping := 9 / 100,
    g_forces := gravityReg, g_torques := [] }

/-- Witness fixture: a particle of unit mass. -/
noncomputable def sphereW : Sphere where
  pos := ⟨0, 0, 0⟩
  vel := ⟨1, 0, 0⟩
  mass := 1
  radius := 1 / 10
  colliders := [3]

/-- Witness fixture: the unit x vector. -/
noncomputable def v100 : Vec3 := ⟨1, 0, 0⟩

/-- Witness fixture: twice the unit x vector. -/
noncomputable def v200 : Vec3 := ⟨2, 0, 0⟩

/-- Witness fixture: a query outcome sequence whose first box collision pass
reports contacts and whose second does not. -/
def qW : Nat → Bool := fun c => decide (c = 0)

@[simp] theorem Vec3.add_x (a b : Vec3) : (a + b).x = a.x + b.x := rfl

@[simp] theorem Vec3.add_y (a b : Vec3) : (a + b).y = a.y + b.y := rfl

@[simp] theorem Vec3.add_z (a b : Vec3) : (a + b).z = a.z + b.z := rfl

@[simp] theorem Vec3.zero_x : (0 : Vec3).x = 0 := rfl

@[simp] theorem Vec3.zero_y : (0 : Vec3).y = 0 := rfl

@[simp] theorem Vec3.zero_z : (0 : Vec3).z = 0 := rfl

@[simp] theorem Vec3.neg_x (a : Vec3) : (-a).x = -a.x := rfl

@[simp] theorem Vec3.neg_y (a : Vec3) : (-a).y = -a.y := rfl

@[simp] theorem Vec3.neg_z (a : Vec3) : (-a).z = -a.z := rfl

@[simp] theorem Vec3.smul_x (c : ℝ) (a : Vec3) : (c • a).x = c * a.x := rfl

@[simp] theorem Vec3.smul_y (c : ℝ) (a : Vec3) : (c • a).y = c * a.y := rfl

@[simp] theorem Vec3.smul_z (c : ℝ) (a : Vec3) : (c • a).z = c * a.z := rfl

@[simp] theorem Vec3.div_x (a : Vec3) (c : ℝ) : (a / c).x = a.x / c := rfl

@[simp] theorem Vec3.div_y (a : Vec3) (c : ℝ) : (a / c).y = a.y / c := rfl

@[simp] theorem Vec3.div_z (a : Vec3) (c : ℝ) : (a / c).z = a.z / c := rfl

@[simp] theorem Vec3.sub_x (a b : Vec3) : (a - b).x = a.x - b.x := by
  show a.x + -b.x = a.x - b.x; ring

@[simp] theorem Vec3.sub_y (a b : Vec3) : (a - b).y = a.y - b.y := by
  show a.y + -b.y = a.y - b.y; ring

@[simp] theorem Vec3.sub_z (a b : Vec3) : (a - b).z = a.z - b.z := by
  show a.z + -b.z = a.z - b.z; ring

theorem vzero_div (c : ℝ) : (0 : Vec3) / c = 0 := by
  ext <;> simp

theorem vadd_div (a b : Vec3) (c : ℝ) : (a + b) / c = a / c + b / c := by
  ext <;> simp <;> ring

theorem netForce_nil : netForce [] = 0 := rfl

theorem netForce_cons (k : String) (v : Vec3) (m : Registry) :
    netForce ((k, v) :: m) = v + netForce m := rfl

theorem foldl_div_eq (m : ℝ) (g : Registry) :
    ∀ a : Vec3,
      g.foldl (fun (acc : Vec3) (f : String × Vec3) => acc + f.2 / m) a =
        a + netForce g / m := by
  induction g with
  | nil => intro a; simp [netForce_nil, vzero_div]
  | cons p rest ih =>
    intro a
    obtain ⟨k, v⟩ := p
    rw [List.foldl_cons, ih, netForce_cons, vadd_div, add_assoc]

theorem foldl_smul_zero (g : Registry) :
    ∀ a : Vec3, g.foldl (fun acc f => acc + (0 : ℝ) • f.2) a = a := by
  induction g with
  | nil => intro a; rfl
  | cons p rest ih => intro a; rw [List.foldl_cons, zero_smul, add_zero, ih]

theorem mulVec_zero (M : Mat3) : M.mulVec 0 = 0 := by
  ext <;> simp [Mat3.mulVec]

theorem quatFromVec_zero : quatFromVec 0 = 0 := by
  ext <;> rfl

theorem normSq_qnormalize (q : Quaternion ℝ) :
    Quaternion.normSq (qnormalize q) = 1 := by
  unfold qnormalize
  by_cases hc : Real.sqrt (Quaternion.normSq q) ≤ 0
  · rw [if_pos hc, Quaternion.normSq_def']
    show (1 : ℝ) ^ 2 + 0 ^ 2 + 0 ^ 2 + 0 ^ 2 = 1
    norm_num
  · rw [if_neg hc]
    push_neg at hc
    have hnn : 0 ≤ Quaternion.normSq q := Quaternion.normSq_nonneg
    have hne : Quaternion.normSq q ≠ 0 := by
      intro h0
      rw [h0, Real.sqrt_zero] at hc
      exact lt_irrefl 0 hc
    rw [Quaternion.normSq_smul, inv_pow, Real.sq_sqrt hnn]
    exact inv_mul_cancel₀ hne

theorem qnormalize_of_normSq_one (q : Quaternion ℝ)
    (hq : Quaternion.normSq q = 1) : qnormalize q = q := by
  unfold qnormalize
  rw [hq, Real.sqrt_one, if_neg (by norm_num), inv_one, one_smul]

theorem lookup_mapAssign_self (k : String) (v : Vec3) (m : Registry) :
    lookupName k (mapAssign k v m) = some v := by
  induction m with
  | nil => simp [mapAssign, lookupName]
  | cons p rest ih =>
    obtain ⟨n, w⟩ := p
    by_cases hnk : n = k
    · simp [mapAssign, lookupName, hnk]
    · simp [mapAssign, lookupName, hnk, ih]

theorem mapAssign_mapAssign (k : String) (v1 v2 : Vec3) (m : Registry) :
    mapAssign k v2 (mapAssign k v1 m) = mapAssign k v2 m := by
  induction m with
  | nil => simp [mapAssign]
  | cons p rest ih =>
    obtain ⟨n, w⟩ := p
    by_cases hnk : n = k
    · simp [mapAssign, hnk]
    · simp [mapAssign, hnk, ih]

/-- C5: adding a force twice under the same name leaves the registry holding
exactly the second vector under that name; the first contribution is
replaced, not accumulated, so the whole registry (and hence its net
accumulated force) is as if only the second add had happened. -/
theorem add_force_overrides (m : Registry) (name : String) (v1 v2 : Vec3) :
    lookupName name (add_global_force name v2 (add_global_force name v1 m)) =
      some v2 ∧
    add_global_force name v2 (add_global_force name v1 m) =
      add_global_force name v2 m ∧
    netForce (add_global_force name v2 (add_global_force name v1 m)) =
      netForce (add_global_force name v2 m) :=
  ⟨lookup_mapAssign_self name v2 (mapAssign name v1 m),
   mapAssign_mapAssign name v1 v2 m,
   congrArg netForce (mapAssign_mapAssign name v1 v2 m)⟩

/-- C6 counterexample: starting from a registry already holding "x" (with
the unit x vector), adding "x" (now with twice the unit x vector) and then
removing "x" does not restore the previous net force: the old entry was
overwritten by the add and then erased entirely, so the net force drops to
zero instead of returning to the unit x vector. -/
theorem add_remove_not_restoring :
    ¬ netForce (remove_global_force ("x")
        (add_global_force ("x") v200 [(("x" : String), v100)])).1 =
      netForce [(("x" : String), v100)] := by
  intro hEq
  have h1 : (remove_global_force ("x")
      (add_global_force ("x") v200 [(("x" : String), v100)])).1 = [] := by
    simp [add_global_force, mapAssign, remove_global_force, lookupName,
      mapEraseFirst]
  rw [h1] at hEq
  have h3 := congrArg Vec3.x hEq
  simp [netForce_nil, netForce_cons, v100] at h3

theorem eraseFirst_mapAssign_of_absent (k : String) (v : Vec3) (m : Registry)
    (habs : lookupName k m = none) : mapEraseFirst k (mapAssign k v m) = m := by
  induction m with
  | nil => simp [mapAssign, mapEraseFirst]
  | cons p rest ih =>
    obtain ⟨n, w⟩ := p
    by_cases hnk : n = k
    · rw [lookupName, if_pos hnk] at habs
      exact absurd habs (by simp)
    · rw [lookupName, if_neg hnk] at habs
      simp [mapAssign, mapEraseFirst, hnk, ih habs]

/-- C6 amended: when the name is absent from the registry beforehand,
adding a force under it and then removing it restores the registry exactly,
and with it the net accumulated force. -/
theorem add_remove_restores_of_absent (k : String) (v : Vec3) (m : Registry)
    (habs : lookupName k m = none) :
    (remove_global_force k (add_global_force k v m)).1 = m ∧
    netForce (remove_global_force k (add_global_force k v m)).1 = netForce m := by
  have h1 : (remove_global_force k (add_global_force k v m)).1 = m := by
    simp [remove_global_force, add_global_force, lookup_mapAssign_self k v m,
      eraseFirst_mapAssign_of_absent k v m habs]
  exact ⟨h1, congrArg netForce h1⟩

/-- C6 amended witness: concrete instance with the gravity-only registry,
which does not contain "x". -/
theorem add_remove_restores_of_absent_witness :
    lookupName ("x") gravityReg = none ∧
    (remove_global_force ("x") (add_global_force ("x") v200 gravityReg)).1 =
      gravityReg :=
  ⟨by simp [gravityReg, lookupName],
   (add_remove_restores_of_absent ("x") v200 gravityReg
      (by simp [gravityReg, lookupName])).1⟩

theorem lookup_eraseFirst_ne (k k2 : String) (hne : k2 ≠ k) (m : Registry) :
    lookupName k2 (mapEraseFirst k m) = lookupName k2 m := by
  induction m with
  | nil => rfl
  | cons p rest ih =>
    obtain ⟨n, w⟩ := p
    by_cases hnk : n = k
    · subst hnk
      simp [mapEraseFirst, lookupName, Ne.symm hne]
    · simp [mapEraseFirst, hnk, lookupName, ih]

theorem lookup_none_of_not_mem_keys (k : String) (m : Registry)
    (h : k ∉ m.map Prod.fst) : lookupName k m = none := by
  induction m with
  | nil => rfl
  | cons p rest ih =>
    obtain ⟨n, w⟩ := p
    simp only [List.map_cons, List.mem_cons] at h
    push_neg at h
    rw [lookupName, if_neg (fun hnk => h.1 hnk.symm), ih h.2]

theorem lookup_eraseFirst_self (k : String) (m : Registry)
    (hnd : (m.map Prod.fst).Nodup) : lookupName k (mapEraseFirst k m) = none := by
  induction m with
  | nil => rfl
  | cons p rest ih =>
    obtain ⟨n, w⟩ := p
    simp only [List.map_cons, List.nodup_cons] at hnd
    by_cases hnk : n = k
    · rw [mapEraseFirst, if_pos hnk]
      subst hnk
      exact lookup_none_of_not_mem_keys n rest hnd.1
    · rw [mapEraseFirst, if_neg hnk, lookupName, if_neg hnk]
      exact ih hnd.2

/-- C7: removing an absent name from the force (resp. torque) registry
reports a diagnostic (the boolean flag) and leaves the registry unchanged,
a total no-op; removing a present name reports no diagnostic, removes that
entry (on unique-key maps, as maintained by assignment, its name then looks
up to nothing) and leaves every other name's entry unchanged. -/
theorem remove_missing_reports_noop (k : String) (m : Registry) :
    (lookupName k m = none →
      remove_global_force k m = (m, true) ∧
      remove_global_torque k m = (m, true)) ∧
    (∀ v, lookupName k m = some v →
      (remove_global_force k m).2 = false ∧
      (remove_global_torque k m).2 = false ∧
      (∀ k2, k2 ≠ k →
        lookupName k2 (remove_global_force k m).1 = lookupName k2 m ∧
        lookupName k2 (remove_global_torque k m).1 = lookupName k2 m) ∧
      ((m.map Prod.fst).Nodup →
        lookupName k (remove_global_force k m).1 = none ∧
        lookupName k (remove_global_torque k m).1 = none)) := by
  constructor
  · intro habs
    constructor
    · simp [remove_global_force, habs]
    · simp [remove_global_torque, habs]
  · intro v hv
    have h1 : remove_global_force k m = (mapEraseFirst k m, false) := by
      simp [remove_global_force, hv]
    have h2 : remove_global_torque k m = (mapEraseFirst k m, false) := by
      simp [remove_global_torque, hv]
    rw [h1, h2]
    exact ⟨rfl, rfl,
      fun k2 hne => ⟨lookup_eraseFirst_ne k k2 hne m,
        lookup_eraseFirst_ne k k2 hne m⟩,
      fun hnd => ⟨lookup_eraseFirst_self k m hnd,
        lookup_eraseFirst_self k m hnd⟩⟩

/-- C7 witness: removing "a" (absent) from the gravity-only registry is a
reported no-op; removing "gravity" (present) reports nothing. -/
theorem remove_missing_reports_noop_witness :
    remove_global_force ("a") gravityReg = (gravityReg, true) ∧
    (remove_global_force ("gravity") gravityReg).2 = false :=
  ⟨((remove_missing_reports_noop ("a") gravityReg).1
      (by simp [gravityReg, lookupName])).1,
   ((remove_missing_reports_noop ("gravity") gravityReg).2
      (⟨0, -(9 / 10), 0⟩ : Vec3) (by simp [gravityReg, lookupName])).1⟩

theorem solverLoopGo_counter_le {W : Type} (query : W → Bool) (solve : W → W) :
    ∀ (fuel c : Nat) (w : W), c ≤ 30 →
      (solverLoopGo query solve fuel c w).1 ≤ 30 := by
  intro fuel
  induction fuel with
  | zero => intro c w hc; exact hc
  | succ fuel ih =>
    intro c w hc
    by_cases h30 : c = 30
    · subst h30; simp [solverLoopGo]
    · rw [solverLoopGo, if_neg h30]
      by_cases hq : query w
      · rw [if_pos hq]
        exact ih (c + 1) (solve w) (by omega)
      · rw [if_neg hq]
        exact hc

/-- C2: the box contact-resolution loop applies at most 30 impulse passes —
the iteration counter of the result never exceeds 30 — and whenever a
collision query reports no contacts the loop exits at once, applying no
impulse pass and leaving counter and world state untouched (stated both for
the loop as entered by handle_collisions and for any intermediate loop
state). -/
theorem box_loop_capped_and_exits_on_no_contacts {W : Type} (query : W → Bool)
    (solve : W → W) (w : W) :
    (solverLoop query solve w).1 ≤ 30 ∧
    (query w = false → solverLoop query solve w = (0, w)) ∧
    (∀ fuel c w2, query w2 = false → solverLoopGo query solve fuel c w2 = (c, w2)) := by
  refine ⟨solverLoopGo_counter_le query solve 31 0 w (by omega), ?_, ?_⟩
  · intro hq
    show solverLoopGo query solve 31 0 w = (0, w)
    rw [solverLoopGo, if_neg (by omega), if_neg (by rw [hq]; exact Bool.false_ne_true)]
  · intro fuel c w2 hq
    cases fuel with
    | zero => rfl
    | succ fuel =>
      by_cases h30 : c = 30
      · rw [solverLoopGo, if_pos h30]
      · rw [solverLoopGo, if_neg h30,
          if_neg (by rw [hq]; exact Bool.false_ne_true)]

/-- C2 witness: a concrete loop over `Nat` world states whose query never
reports contacts. -/
theorem box_loop_capped_witness :
    (solverLoop (fun _ : Nat => false) (fun w => w) 0).1 ≤ 30 ∧
    solverLoop (fun _ : Nat => false) (fun w => w) 0 = (0, 0) :=
  ⟨(box_loop_capped_and_exits_on_no_contacts (fun _ : Nat => false) (fun w => w) 0).1,
   (box_loop_capped_and_exits_on_no_contacts (fun _ : Nat => false) (fun w => w) 0).2.1 rfl⟩

/-- C9: in the destructor's teardown trace, every registered rigid body is
destroyed (its destroy event is in the trace), and every body-destruction
event indexes strictly before any world-destruction event. -/
theorem bodies_destroyed_before_world (bodies : List Nat) :
    (∀ b ∈ bodies, DtorEv.destroyBody b ∈ dtorTrace bodies) ∧
    (∀ i j b,
      (dtorTrace bodies).getD i DtorEv.destroyWorld = DtorEv.destroyBody b →
      (dtorTrace bodies).getD j (DtorEv.destroyBody 0) = DtorEv.destroyWorld →
      i < j) := by
  constructor
  · intro b hb
    show DtorEv.destroyBody b ∈ bodies.map DtorEv.destroyBody ++ [DtorEv.destroyWorld]
    exact List.mem_append_left _ (List.mem_map_of_mem _ hb)
  · intro i j b hi hj
    have hleni : i < (bodies.map DtorEv.destroyBody).length := by
      by_contra hge
      push_neg at hge
      rw [dtorTrace, List.getD_append_right _ _ _ _ hge] at hi
      rcases Nat.lt_or_ge (i - (bodies.map DtorEv.destroyBody).length) 1 with hlt | hge2
      · interval_cases h : i - (bodies.map DtorEv.destroyBody).length
        · exact absurd hi (by simp)
      · rw [List.getD_eq_default _ _ (by simpa using hge2)] at hi
        exact absurd hi (by simp)
    have hlenj : (bodies.map DtorEv.destroyBody).length ≤ j := by
      by_contra hlt
      push_neg at hlt
      rw [dtorTrace, List.getD_append _ _ _ _ hlt,
        List.getD_eq_getElem _ _ hlt, List.getElem_map] at hj
      exact absurd hj (by simp)
    omega

/-- C9 witness: two registered bodies, checked at the first body-destroy
event and the world-destroy event. -/
theorem bodies_destroyed_before_world_witness :
    DtorEv.destroyBody 1 ∈ dtorTrace [0, 1] ∧ (0 : Nat) < 2 :=
  ⟨(bodies_destroyed_before_world [0, 1]).1 1 (by decide),
   (bodies_destroyed_before_world [0, 1]).2 0 2 0 rfl rfl⟩

/-- C4: for a particle of positive mass, the integration step of
Simulator::integrate_spheres is exactly the specified semi-implicit Euler
update: acceleration is the summed registry force divided by mass minus the
damping coefficient times the current velocity divided by mass, velocity is
updated first, position then uses the already-updated velocity, and the
contact-partner list is cleared. -/
theorem sphere_semi_implicit_euler (h damping : ℝ) (g : Registry) (s : Sphere)
    (_hm : 0 < s.mass) :
    integrate_sphere h damping g s = sphereStepSpec h damping g s := by
  have hacc : g.foldl (fun (acc : Vec3) (f : String × Vec3) => acc + f.2 / s.mass) 0
        + ((-damping) • s.vel) / s.mass
      = netForce g / s.mass - (damping • s.vel) / s.mass := by
    rw [foldl_div_eq, zero_add]
    ext <;> simp <;> ring
  simp only [integrate_sphere, sphereStepSpec]
  rw [hacc]

/-- C4 witness: a concrete unit-mass particle under gravity with unit step
size and the source's damping coefficient. -/
theorem sphere_semi_implicit_euler_witness :
    0 < sphereW.mass ∧
    integrate_sphere 1 (9 / 100) gravityReg sphereW =
      sphereStepSpec 1 (9 / 100) gravityReg sphereW :=
  ⟨by norm_num [sphereW],
   sphere_semi_implicit_euler 1 (9 / 100) gravityReg sphereW
      (by norm_num [sphereW])⟩

/-- C10: whenever a box's inverse mass is at most 0.0001 the guard
`inv_mass > .0001` fails, the momentum derivative is zero, and the box's
linear momentum is unchanged by the integration step, whatever the
registries hold. -/
theorem box_small_inv_mass_momentum_unchanged (h damping : ℝ)
    (gf gt : Registry) (b : BoxState) (hm : b.inv_mass ≤ 1 / 10000) :
    (integrate_box h damping gf gt b).P = b.P := by
  have hnot : ¬ (b.inv_mass > 1 / 10000) := not_lt.mpr hm
  simp only [integrate_box]
  rw [if_neg hnot, smul_zero, add_zero]

/-- C10 witness: a concrete immovable box under gravity. -/
theorem box_small_inv_mass_momentum_unchanged_witness :
    boxW.inv_mass ≤ 1 / 10000 ∧
    (integrate_box 1 (9 / 100) gravityReg [] boxW).P = boxW.P :=
  ⟨by norm_num [boxW],
   box_small_inv_mass_momentum_unchanged 1 (9 / 100) gravityReg [] boxW
      (by norm_num [boxW])⟩

theorem integrate_box_orientation_unit (h damping : ℝ) (gf gt : Registry)
    (b : BoxState) :
    Quaternion.normSq ((integrate_box h damping gf gt b).orientation) = 1 := by
  simp only [integrate_box]
  exact normSq_qnormalize _

/-- C3: after every per-frame step — whatever the collision phase did, for
any step size, damping and registries — the box orientation quaternion has
unit norm (unit squared norm), because re-normalization is the last
operation Simulator::integrate_boxes performs on the orientation; hence the
invariant holds after every step, for all step counts. -/
theorem orientation_unit_after_every_step (env : Nat → FrameEnv)
    (b : BoxState) (n : Nat) :
    Quaternion.normSq ((runFrames env (n + 1) b).orientation) = 1 := by
  show Quaternion.normSq ((frameStep (env n) (runFrames env n b)).orientation) = 1
  exact integrate_box_orientation_unit (env n).h (env n).damping
    (env n).g_forces (env n).g_torques ((env n).resolve (runFrames env n b))

theorem integrate_box_static (h damping : ℝ) (gf gt : Registry) {b : BoxState}
    (hb : StaticRest b) :
    (integrate_box h damping gf gt b).center = b.center ∧
    (integrate_box h damping gf gt b).orientation = b.orientation ∧
    StaticRest (integrate_box h damping gf gt b) := by
  obtain ⟨h0, hv, hL, hq⟩ := hb
  have htq : gt.foldl
      (fun (a : Vec3) (f : String × Vec3) => a + b.inv_mass • f.2) 0 = 0 := by
    rw [h0]
    exact foldl_smul_zero gt 0
  have hcenter : (integrate_box h damping gf gt b).center = b.center := by
    simp only [integrate_box, hv, smul_zero, add_zero]
  have horient : (integrate_box h damping gf gt b).orientation = b.orientation := by
    simp only [integrate_box, hL, htq, smul_zero, add_zero, zero_add,
      mulVec_zero, quatFromVec_zero, zero_mul]
    exact qnormalize_of_normSq_one b.orientation hq
  refine ⟨hcenter, horient, ?_, ?_, ?_, ?_⟩
  · show b.inv_mass = 0
    exact h0
  · show b.inv_mass • _ = 0
    rw [h0, zero_smul]
  · show b.L + _ • gt.foldl _ 0 = 0
    rw [hL, htq, smul_zero, add_zero]
  · rw [horient]
    exact hq

/-- C1: a box in the boundary-box initial state (inverse mass 0, at rest,
unit orientation) keeps exactly its center and orientation across any
number of per-frame steps (collision handling, as constrained by the spec,
followed by integration), for any step sizes, damping coefficients and any
contents of the force and torque registries in each frame. -/
theorem immovable_boxes_never_move (env : Nat → FrameEnv)
    (hres : ∀ k, SpecResolve (env k).resolve) (b : BoxState)
    (hb : StaticRest b) (n : Nat) :
    (runFrames env n b).center = b.center ∧
    (runFrames env n b).orientation = b.orientation := by
  have key : ∀ m : Nat, StaticRest (runFrames env m b) ∧
      (runFrames env m b).center = b.center ∧
      (runFrames env m b).orientation = b.orientation := by
    intro m
    induction m with
    | zero => exact ⟨⟨hb.1, hb.2.1, hb.2.2.1, hb.2.2.2⟩, rfl, rfl⟩
    | succ m ih =>
      obtain ⟨hs, hc, ho⟩ := ih
      have hfix : (env m).resolve (runFrames env m b) = runFrames env m b :=
        (hres m (runFrames env m b)).2.2.2.2 hs.1
      have hstep : runFrames env (m + 1) b =
          integrate_box (env m).h (env m).damping (env m).g_forces
            (env m).g_torques (runFrames env m b) := by
        show frameStep (env m) (runFrames env m b) = _
        unfold frameStep
        rw [hfix]
      obtain ⟨hc2, ho2, hs2⟩ := integrate_box_static (env m).h (env m).damping
        (env m).g_forces (env m).g_torques hs
      rw [hstep]
      exact ⟨hs2, hc2.trans hc, ho2.trans ho⟩
  exact ⟨(key n).2.1, (key n).2.2⟩

/-- C1 witness: a concrete boundary box under an identity resolution phase,
gravity and the source's damping, over three frames. -/
theorem immovable_boxes_never_move_witness :
    (runFrames envW 3 boxW).center = boxW.center ∧
    (runFrames envW 3 boxW).orientation = boxW.orientation :=
  immovable_boxes_never_move envW
    (fun _ b => ⟨rfl, rfl, rfl, rfl, fun _ => rfl⟩) boxW
    ⟨rfl, rfl, rfl, by
      rw [Quaternion.normSq_def']
      show (1 : ℝ) ^ 2 + 0 ^ 2 + 0 ^ 2 + 0 ^ 2 = 1
      norm_num⟩
    3

theorem boxPhaseGo_mem (query : Nat → Bool) :
    ∀ (fuel c : Nat), ∀ e ∈ boxPhaseGo query fuel c,
      e = Ev.boxQuery ∨ e = Ev.boxSolve := by
  intro fuel
  induction fuel with
  | zero =>
    intro c e he
    simp [boxPhaseGo] at he
  | succ fuel ih =>
    intro c e he
    simp only [boxPhaseGo] at he
    by_cases h30 : c = 30
    · rw [if_pos h30] at he
      simp at he
    · rw [if_neg h30] at he
      rcases List.mem_cons.mp he with h | h
      · exact Or.inl h
      · by_cases hq : query c
        · rw [if_pos hq] at h
          rcases List.mem_cons.mp h with h2 | h2
          · exact Or.inr h2
          · exact ih (c + 1) e h2
        · rw [if_neg hq] at h
          simp at h

theorem boxPhaseGo_solve_prev (query : Nat → Bool) :
    ∀ (fuel c j : Nat),
      (boxPhaseGo query fuel c).getD j Ev.sphereDetect = Ev.boxSolve →
      1 ≤ j ∧ (boxPhaseGo query fuel c).getD (j - 1) Ev.sphereDetect = Ev.boxQuery := by
  intro fuel
  induction fuel with
  | zero =>
    intro c j hj
    rw [show boxPhaseGo query 0 c = [] from rfl, List.getD_nil] at hj
    exact Ev.noConfusion hj
  | succ fuel ih =>
    intro c j hj
    by_cases h30 : c = 30
    · simp only [boxPhaseGo, if_pos h30, List.getD_nil] at hj
      exact Ev.noConfusion hj
    · by_cases hq : query c
      · simp only [boxPhaseGo, if_neg h30, if_pos hq] at hj ⊢
        cases j with
        | zero => exact Ev.noConfusion hj
        | succ k =>
          cases k with
          | zero => exact ⟨Nat.le_refl 1, rfl⟩
          | succ k2 =>
            obtain ⟨hk1, hk2⟩ := ih (c + 1) k2 hj
            obtain ⟨k3, rfl⟩ : ∃ k3, k2 = k3 + 1 := ⟨k2 - 1, by omega⟩
            exact ⟨by omega, hk2⟩
      · simp only [boxPhaseGo, if_neg h30, if_neg hq] at hj
        cases j with
        | zero => exact Ev.noConfusion hj
        | succ k => exact Ev.noConfusion hj

theorem front_no_integrate (query : Nat → Bool) :
    ∀ m, m < ([Ev.sphereDetect, Ev.sphereResolve] ++ boxPhaseGo query 31 0).length →
      ((([Ev.sphereDetect, Ev.sphereResolve] ++ boxPhaseGo query 31 0)).getD m
        Ev.sphereDetect).isIntegrate = false := by
  intro m hm
  match m with
  | 0 => rfl
  | 1 => rfl
  | (m + 2) =>
    have hm2 : m < (boxPhaseGo query 31 0).length := by
      rw [List.length_append] at hm
      simp at hm
      omega
    show ((boxPhaseGo query 31 0).getD m Ev.sphereDetect).isIntegrate = false
    rw [List.getD_eq_getElem _ _ hm2]
    rcases boxPhaseGo_mem query 31 0 _ (List.getElem_mem hm2) with h | h <;>
      rw [h] <;> rfl

/-- C8 amended: within one frame, the particle grid pass (detection) comes
first and the particle contact resolution immediately after it; every box
impulse-resolution pass is immediately preceded by the box collision query
of the same pass; and every detection or resolution event strictly precedes
every integration event.  (Detection as a whole does not complete before
resolution begins: the box queries interleave with the impulse passes, and
the particle resolution precedes the box queries.) -/
theorem frame_phase_ordering (query : Nat → Bool) :
    ((frameTrace query).getD 0 Ev.sphereDetect = Ev.sphereDetect ∧
     (frameTrace query).getD 1 Ev.sphereDetect = Ev.sphereResolve) ∧
    (∀ j, (frameTrace query).getD j Ev.sphereDetect = Ev.boxSolve →
      1 ≤ j ∧ (frameTrace query).getD (j - 1) Ev.sphereDetect = Ev.boxQuery) ∧
    (∀ i, i < (frameTrace query).length →
      ((frameTrace query).getD i Ev.sphereDetect).isIntegrate = false →
      ∀ j, j < (frameTrace query).length →
        ((frameTrace query).getD j Ev.sphereDetect).isIntegrate = true →
        i < j) := by
  refine ⟨⟨rfl, rfl⟩, ?_, ?_⟩
  · intro j hj
    match j, hj with
    | 0, hj => exact Ev.noConfusion hj
    | 1, hj => exact Ev.noConfusion hj
    | (m + 2), hj =>
      have hj2 : (boxPhaseGo query 31 0 ++
          [Ev.integrateSpheres, Ev.integrateBoxes]).getD m Ev.sphereDetect =
          Ev.boxSolve := hj
      have hmP : m < (boxPhaseGo query 31 0).length := by
        by_contra hge
        push_neg at hge
        rw [List.getD_append_right _ _ _ _ hge] at hj2
        have h2 : m - (boxPhaseGo query 31 0).length = 0 ∨
            m - (boxPhaseGo query 31 0).length = 1 ∨
            2 ≤ m - (boxPhaseGo query 31 0).length := by omega
        rcases h2 with h2 | h2 | h2
        · rw [h2] at hj2
          exact Ev.noConfusion hj2
        · rw [h2] at hj2
          exact Ev.noConfusion hj2
        · rw [List.getD_eq_default _ _ (by simpa using h2)] at hj2
          exact Ev.noConfusion hj2
      rw [List.getD_append _ _ _ _ hmP] at hj2
      obtain ⟨hm1, hm2⟩ := boxPhaseGo_solve_prev query 31 0 m hj2
      refine ⟨by omega, ?_⟩
      obtain ⟨m2, rfl⟩ : ∃ m2, m = m2 + 1 := ⟨m - 1, by omega⟩
      show (boxPhaseGo query 31 0 ++
          [Ev.integrateSpheres, Ev.integrateBoxes]).getD m2 Ev.sphereDetect =
        Ev.boxQuery
      rw [List.getD_append _ _ _ _
        (by omega : m2 < (boxPhaseGo query 31 0).length)]
      exact hm2
  · intro i hi hni j hj hj2
    have hE : frameTrace query =
        ([Ev.sphereDetect, Ev.sphereResolve] ++ boxPhaseGo query 31 0) ++
          [Ev.integrateSpheres, Ev.integrateBoxes] := by
      show [Ev.sphereDetect, Ev.sphereResolve] ++
          (boxPhaseGo query 31 0 ++ [Ev.integrateSpheres, Ev.integrateBoxes]) = _
      exact (List.append_assoc _ _ _).symm
    have hlenF : ([Ev.sphereDetect, Ev.sphereResolve] ++
        boxPhaseGo query 31 0).length = (boxPhaseGo query 31 0).length + 2 := by
      have h2l : ([Ev.sphereDetect, Ev.sphereResolve] : List Ev).length = 2 := rfl
      rw [List.length_append, h2l, Nat.add_comm]
    have hlenT : (frameTrace query).length =
        (boxPhaseGo query 31 0).length + 4 := by
      show ([Ev.sphereDetect, Ev.sphereResolve] ++ (boxPhaseGo query 31 0 ++
        [Ev.integrateSpheres, Ev.integrateBoxes])).length = _
      have h2l : ([Ev.sphereDetect, Ev.sphereResolve] : List Ev).length = 2 := rfl
      have h2t : ([Ev.integrateSpheres, Ev.integrateBoxes] : List Ev).length = 2 :=
        rfl
      rw [List.length_append, List.length_append, h2l, h2t]
      omega
    have hiF : i <
        ([Ev.sphereDetect, Ev.sphereResolve] ++ boxPhaseGo query 31 0).length := by
      by_contra hge
      push_neg at hge
      rw [hE, List.getD_append_right _ _ _ _ hge] at hni
      have h2 : i - ([Ev.sphereDetect, Ev.sphereResolve] ++
          boxPhaseGo query 31 0).length = 0 ∨
          i - ([Ev.sphereDetect, Ev.sphereResolve] ++
            boxPhaseGo query 31 0).length = 1 := by
        omega
      rcases h2 with h2 | h2 <;> rw [h2] at hni <;> exact Bool.noConfusion hni
    have hjF : ([Ev.sphereDetect, Ev.sphereResolve] ++
        boxPhaseGo query 31 0).length ≤ j := by
      by_contra hlt
      push_neg at hlt
      rw [hE, List.getD_append _ _ _ _ hlt] at hj2
      have hfalse := front_no_integrate query j hlt
      rw [hj2] at hfalse
      exact Bool.noConfusion hfalse
    omega

/-- C8 counterexample: on the concrete frame whose first box collision pass
reports contacts and whose second does not, it is false that every
detection event (particle grid pass, box collision query) indexes before
every resolution event: the box query of the second pass comes after the
impulse pass of the first, and the particle resolution comes before every
box query. -/
theorem detection_not_all_before_resolution :
    ¬ detectBeforeResolveBeforeIntegrate (frameTrace qW) := by
  intro hcl
  have h1 := hcl.1 4 (by decide) (by decide) 3 (by decide) (by decide)
  omega

/-- C8 amended witness: concrete checks on the same frame — the impulse
pass at index 3 is immediately preceded by its query, and the non-integration
event at index 2 precedes the integration event at index 5. -/
theorem frame_phase_ordering_witness :
    (1 ≤ 3 ∧ (frameTrace qW).getD (3 - 1) Ev.sphereDetect = Ev.boxQuery) ∧
    (2 : Nat) < 5 :=
  ⟨(frame_phase_ordering qW).2.1 3 rfl,
   (frame_phase_ordering qW).2.2 2 (by decide) rfl 5 (by decide) rfl⟩

end CFD
